import Mathlib

/-!
Verification of the command-server repository (src/commandserver.py) against
its natural-language specification.

Part 1 embeds the code that actually exists in src/commandserver.py:
`CommandServerApp`, `ProcessFactory`, `Process`, `Args`, and the null test
doubles.  Python's stateful objects become explicit state passing; Python
exceptions raised by `subprocess.Popen` become `Except SpawnError`; the
injected `subprocess` module becomes a capability function.  Calls made to
the injected `subprocess.Popen` are recorded in `popen_calls` so that effect
counts ("spawns exactly once") are observable in the embedding.

Part 2 models, from the spec only, the subsystem the spec reconstructs
(Registry, Process Supervisor serialization, Server Loop error policy):
those components have no code under src/.
-/

/-- Result of Python's `subprocess.Popen`: an object carrying a pid.
`NullPopen` (src line 107) has `pid = None`, the real one an integer pid,
so the pid is an `Option Int`. -/
structure Popen where
  pid : Option Int
deriving Repr, DecidableEq

/-- OS-level failure of `subprocess.Popen` (missing executable, permission
denied, empty argument vector): the exception the real `Popen` can raise. -/
inductive SpawnError where
  | cannotLaunch (reason : String)
deriving Repr, DecidableEq

/-- The injected `subprocess` module, reduced to its one used operation
`Popen : command → process`, which may fail with an OS-level error. -/
abbrev Subprocess := List String → Except SpawnError Popen

/-- `NullSubprocess` (src lines 102-105): `Popen` always succeeds and
returns a `NullPopen`, whose pid is `None`. -/
def NullSubprocess : Subprocess := fun _ => .ok { pid := none }

/-- `Process` (src lines 112-122): records the command and the popen object. -/
structure Process where
  command : List String
  popen : Popen
deriving Repr, DecidableEq

/-- `Process.get_pid` (src lines 118-119): returns `self.popen.pid`. -/
def Process.get_pid (p : Process) : Option Int :=
  p.popen.pid

/-- `ProcessFactory` state (src lines 91-93): `last_spwaned` (the source's
spelling) starts as `None`; `subprocess` is the injected module.
`popen_calls` records each command passed to `subprocess.Popen`, i.e. the
observable effect trace at the OS boundary. -/
structure ProcessFactory where
  last_spwaned : Option Process
  subprocess : Subprocess
  popen_calls : List (List String)

/-- `ProcessFactory.__init__` (src lines 91-93): `last_spwaned = None`. -/
def ProcessFactory.init (sp : Subprocess) : ProcessFactory :=
  { last_spwaned := none, subprocess := sp, popen_calls := [] }

/-- `ProcessFactory.spawn` (src lines 95-97): calls
`self.subprocess.Popen(command)`, wraps the result in a fresh `Process`
together with the command, stores it as `last_spwaned` and returns it.
If `Popen` raises, the exception propagates: no `Process` is built and
`last_spwaned` is not assigned. -/
def ProcessFactory.spawn (f : ProcessFactory) (command : List String) :
    Except SpawnError Process × ProcessFactory :=
  let f1 := { f with popen_calls := f.popen_calls ++ [command] }
  match f.subprocess command with
  | .error e => (.error e, f1)
  | .ok po =>
      let p : Process := { command := command, popen := po }
      (.ok p, { f1 with last_spwaned := some p })

/-- `ProcessFactory.get_last_spawned` (src lines 99-100). -/
def ProcessFactory.get_last_spawned (f : ProcessFactory) : Option Process :=
  f.last_spwaned

/-- The wrapped `sys` module: only its `argv` field is used. -/
structure Sys where
  argv : List String

/-- `Args` (src lines 124-152): an infrastructure wrapper for `sys.argv`. -/
structure Args where
  sys : Sys

/-- `Args.create_null` (src lines 144-146): wraps `[None] + args`.  The
placeholder at position 0 stands for the program name and is never read by
`get`; it is embedded as the empty string. -/
def Args.create_null (args : List String) : Args :=
  { sys := { argv := "" :: args } }

/-- `Args.get` (src lines 151-152): returns `self.sys.argv[1:]`. -/
def Args.get (a : Args) : List String :=
  a.sys.argv.drop 1

/-- `CommandServerApp` (src lines 37-62): holds the argument source and the
process factory. -/
structure CommandServerApp where
  arguments : Args
  process_factory : ProcessFactory

/-- `CommandServerApp.run` (src lines 61-62):
`self.process_factory.spawn(self.arguments.get())`.  The Python method
returns `None`; an exception from `spawn` propagates. -/
def CommandServerApp.run (app : CommandServerApp) :
    Except SpawnError Unit × CommandServerApp :=
  match app.process_factory.spawn app.arguments.get with
  | (.error e, f) => (.error e, { app with process_factory := f })
  | (.ok _, f) => (.ok (), { app with process_factory := f })

/-- The `__main__` entry point (src lines 159-160): `CommandServerApp().run()`
with the real `sys.argv` and the real `subprocess` module injected as the
process-wide defaults. -/
def mainApp (argv : List String) (sp : Subprocess) : CommandServerApp :=
  { arguments := { sys := { argv := argv } },
    process_factory := ProcessFactory.init sp }

/-- Running `run` repeatedly on the same app, threading the state: the
server's lifetime of initial run plus later respawns, all through the one
`run` method the source has. -/
def CommandServerApp.runN (app : CommandServerApp) : Nat → CommandServerApp
  | 0 => app
  | n + 1 => (app.run).2.runN n

theorem run_popen_calls (app : CommandServerApp) :
    (app.run).2.process_factory.popen_calls =
      app.process_factory.popen_calls ++ [app.arguments.get] := by
  cases h : app.process_factory.subprocess app.arguments.get <;>
    simp [CommandServerApp.run, ProcessFactory.spawn, h]

theorem run_preserves_arguments (app : CommandServerApp) :
    (app.run).2.arguments = app.arguments := by
  cases h : app.process_factory.subprocess app.arguments.get <;>
    simp [CommandServerApp.run, ProcessFactory.spawn, h]

theorem run_preserves_subprocess (app : CommandServerApp) :
    (app.run).2.process_factory.subprocess = app.process_factory.subprocess := by
  cases h : app.process_factory.subprocess app.arguments.get <;>
    simp [CommandServerApp.run, ProcessFactory.spawn, h]

/-- Claim C1: started with argument list `argv`, the app's `run` passes the
managed command to `subprocess.Popen` exactly once, and that command is
exactly `sys.argv[1:]`; the recorded last-spawned handle, when `Popen`
succeeds, carries that same argument vector. -/
theorem C1_run_spawns_argv_once (argv : List String) (sp : Subprocess) :
    ((mainApp argv sp).run).2.process_factory.popen_calls = [argv.drop 1] ∧
    ((mainApp argv sp).run).2.process_factory.get_last_spawned =
      (sp (argv.drop 1)).toOption.map
        (fun po => { command := argv.drop 1, popen := po }) := by
  cases h : sp argv.tail <;>
    simp [mainApp, CommandServerApp.run, ProcessFactory.spawn, ProcessFactory.init,
      ProcessFactory.get_last_spawned, Args.get, h, Except.toOption, List.drop_one]

/-- Claim C7: `spawn` propagates the launch failure of the injected
`Popen` (and then builds no handle: no new process value is produced and
`last_spwaned` is untouched), and on a successful launch it returns a
handle whose `get_pid` is exactly the pid of the process `Popen` started. -/
theorem C7_spawn_handle_or_error (f : ProcessFactory) (command : List String) :
    (∀ e, f.subprocess command = .error e →
      (f.spawn command).1 = .error e ∧
      (f.spawn command).2.last_spwaned = f.last_spwaned) ∧
    (∀ po, f.subprocess command = .ok po →
      (f.spawn command).1 = .ok { command := command, popen := po } ∧
      Process.get_pid { command := command, popen := po } = po.pid) := by
  constructor
  · intro e he
    simp [ProcessFactory.spawn, he]
  · intro po hpo
    simp [ProcessFactory.spawn, hpo, Process.get_pid]

/-- A subprocess capability on which every launch fails: models an
environment where the executable is missing. -/
def failingSubprocess : Subprocess :=
  fun _ => .error (.cannotLaunch "missing executable")

theorem C7_spawn_handle_or_error_witness :
    ((ProcessFactory.init failingSubprocess).spawn ["nosuch"]).1
        = .error (.cannotLaunch "missing executable") ∧
    ((ProcessFactory.init NullSubprocess).spawn ["echo", "hello"]).1
        = .ok { command := ["echo", "hello"], popen := { pid := none } } :=
  ⟨((C7_spawn_handle_or_error (ProcessFactory.init failingSubprocess) ["nosuch"]).1
      (.cannotLaunch "missing executable") rfl).1,
   ((C7_spawn_handle_or_error (ProcessFactory.init NullSubprocess) ["echo", "hello"]).2
      { pid := none } rfl).1⟩

/-- Claim C8: the command specification is fixed at construction and every
run over the server's lifetime spawns with that same argument vector: after
any number of `run` calls the argument source is unchanged and the sequence
of commands handed to `Popen` is the initial `arguments.get` repeated. -/
theorem C8_command_spec_immutable (app : CommandServerApp) (n : Nat) :
    (app.runN n).arguments = app.arguments ∧
    (app.runN n).process_factory.popen_calls =
      app.process_factory.popen_calls ++ List.replicate n app.arguments.get := by
  induction n generalizing app with
  | zero => simp [CommandServerApp.runN]
  | succ n ih =>
      have h := ih (app.run).2
      refine ⟨?_, ?_⟩
      · calc (app.runN (n + 1)).arguments = ((app.run).2.runN n).arguments := rfl
          _ = (app.run).2.arguments := h.1
          _ = app.arguments := run_preserves_arguments app
      · calc (app.runN (n + 1)).process_factory.popen_calls
            = ((app.run).2.runN n).process_factory.popen_calls := rfl
          _ = (app.run).2.process_factory.popen_calls
                ++ List.replicate n (app.run).2.arguments.get := h.2
          _ = (app.process_factory.popen_calls ++ [app.arguments.get])
                ++ List.replicate n app.arguments.get := by
                rw [run_popen_calls, run_preserves_arguments]
          _ = app.process_factory.popen_calls
                ++ List.replicate (n + 1) app.arguments.get := by
                simp [List.replicate_succ, List.append_assoc]

/-- Claim C9: before any spawn the factory's `get_last_spawned` is `None`;
each successful `spawn` builds a fresh handle recording the given command,
returns it, and that very handle becomes `get_last_spawned` of the
post-spawn state. -/
theorem C9_handle_replaced_not_mutated (sp : Subprocess) (f : ProcessFactory)
    (command : List String) :
    (ProcessFactory.init sp).get_last_spawned = none ∧
    (∀ po, f.subprocess command = .ok po →
      ∃ p : Process, (f.spawn command).1 = .ok p ∧ p.command = command ∧
        (f.spawn command).2.get_last_spawned = some p) := by
  refine ⟨rfl, ?_⟩
  intro po hpo
  refine ⟨{ command := command, popen := po }, ?_, rfl, ?_⟩ <;>
    simp [ProcessFactory.spawn, ProcessFactory.get_last_spawned, hpo]

theorem C9_handle_replaced_not_mutated_witness :
    (ProcessFactory.init NullSubprocess).get_last_spawned = none ∧
    (∃ p : Process,
      ((ProcessFactory.init NullSubprocess).spawn ["echo", "hello"]).1 = .ok p ∧
      p.command = ["echo", "hello"] ∧
      ((ProcessFactory.init NullSubprocess).spawn ["echo", "hello"]).2.get_last_spawned
        = some p) :=
  ⟨(C9_handle_replaced_not_mutated NullSubprocess
      (ProcessFactory.init NullSubprocess) ["echo", "hello"]).1,
   (C9_handle_replaced_not_mutated NullSubprocess
      (ProcessFactory.init NullSubprocess) ["echo", "hello"]).2 { pid := none } rfl⟩

/-- Claim C10: started with no arguments beyond the program name,
`Args.get` yields `[]`, `run` passes the empty argument vector straight to
`subprocess.Popen` with no validation in between, and when the launch
primitive rejects the empty vector the failure is the run's outcome. -/
theorem C10_empty_args_spawned (prog : String) (sp : Subprocess) :
    (mainApp [prog] sp).arguments.get = [] ∧
    ((mainApp [prog] sp).run).2.process_factory.popen_calls = [[]] ∧
    (∀ e, sp [] = .error e → ((mainApp [prog] sp).run).1 = .error e) := by
  refine ⟨rfl, ?_, ?_⟩
  · have h := run_popen_calls (mainApp [prog] sp)
    simpa [mainApp, ProcessFactory.init, Args.get] using h
  · intro e he
    simp [mainApp, CommandServerApp.run, ProcessFactory.spawn, ProcessFactory.init,
      Args.get, he]

theorem C10_empty_args_spawned_witness :
    (mainApp ["command-server"] failingSubprocess).arguments.get = [] ∧
    ((mainApp ["command-server"] failingSubprocess).run).1
      = .error (.cannotLaunch "missing executable") :=
  ⟨(C10_empty_args_spawned "command-server" failingSubprocess).1,
   (C10_empty_args_spawned "command-server" failingSubprocess).2.2
     (.cannotLaunch "missing executable") rfl⟩

/-- Claim C2 (code evaluated at the failing input): started as
`command-server --invoke`, the code does not perform discovery; it passes
`['--invoke']` to `subprocess.Popen` as the command to execute. -/
theorem C2_invoke_flag_spawned_as_command :
    ((mainApp ["command-server", "--invoke"] NullSubprocess).run).2.process_factory.popen_calls
      = [["--invoke"]] ∧
    ((mainApp ["command-server", "--invoke"] NullSubprocess).run).2.process_factory.get_last_spawned
      = some { command := ["--invoke"], popen := { pid := none } } := by
  exact ⟨rfl, rfl⟩

/-!
Part 2: the subsystem the spec reconstructs.  The Registry, the Process
Supervisor's respawn serialization and the Server Loop have no code under
src/ (the source only sketches them in its module docstring), so they are
modelled from the spec and the corresponding claims are settled against
these models.
-/

/-- Modelled from the spec: canonical directory path (glossary) — an
absolute, normalized path used as a registry key.  A path is a list of
segments from the root; canonicalization drops empty and current-directory
segments and resolves parent-directory segments. -/
def canonicalize (p : List String) : List String :=
  p.foldl
    (fun acc seg =>
      if seg = "." ∨ seg = "" then acc
      else if seg = ".." then acc.dropLast
      else acc ++ [seg]) []

/-- Modelled from the spec: Registration (§3) — the stored association of a
canonical directory with a live server's endpoint.  The endpoint is an
opaque local address, modelled as a number. -/
structure Registration where
  canonical_directory : List String
  endpoint : Nat
deriving Repr, DecidableEq

/-- Modelled from the spec: the Registry (§4.2) — the recorded entries plus
the liveness probe capability that tells whether an endpoint is reachable
(glossary: liveness probe). -/
structure Registry where
  entries : List Registration
  probe : Nat → Bool

/-- Modelled from the spec: the liveness check used by `publish` and
`resolve` — the first recorded entry for the directory whose endpoint the
probe can reach; presence alone is never trusted as liveness (§4.2). -/
def Registry.liveFind (reg : Registry) (d : List String) : Option Registration :=
  reg.entries.find?
    (fun r => decide (r.canonical_directory = d) && reg.probe r.endpoint)

/-- Modelled from the spec: result of `Registry.publish` (§4.2). -/
inductive PublishResult where
  | Ok
  | AlreadyRegistered
deriving Repr, DecidableEq

/-- Modelled from the spec: `Registry.publish` (§4.2) — returns
`AlreadyRegistered` exactly when a live registration for that exact
directory exists; otherwise it records the new registration, lazily purging
any stale record for the directory (§4.2 stale-entry policy). -/
def Registry.publish (reg : Registry) (d : List String) (e : Nat) :
    PublishResult × Registry :=
  match reg.liveFind d with
  | some _ => (.AlreadyRegistered, reg)
  | none =>
      (.Ok,
        { reg with
          entries :=
            reg.entries.filter (fun r => !(decide (r.canonical_directory = d)))
              ++ [{ canonical_directory := d, endpoint := e }] })

/-- Modelled from the spec: result of `Registry.resolve` (§4.2). -/
inductive ResolveResult where
  | Found (directory : List String) (endpoint : Nat)
  | NotFound
deriving Repr, DecidableEq

/-- Modelled from the spec: the ancestor walk of `Registry.resolve` (§4.2),
nearest-first — candidate `c.take k` for `k` from `c.length` down to 0,
each canonicalized and checked for a live registration. -/
def Registry.resolveUpTo (reg : Registry) (c : List String) : Nat → ResolveResult
  | 0 =>
      match reg.liveFind (canonicalize (c.take 0)) with
      | some r => .Found (canonicalize (c.take 0)) r.endpoint
      | none => .NotFound
  | k + 1 =>
      match reg.liveFind (canonicalize (c.take (k + 1))) with
      | some r => .Found (canonicalize (c.take (k + 1))) r.endpoint
      | none => reg.resolveUpTo c k

/-- Modelled from the spec: `Registry.resolve` (§4.2) — walks from the
starting directory upward through each ancestor (the directory itself
first) toward the root. -/
def Registry.resolve (reg : Registry) (c : List String) : ResolveResult :=
  reg.resolveUpTo c c.length

theorem liveFind_eq_none_iff (reg : Registry) (d : List String) :
    reg.liveFind d = none ↔
      ∀ r ∈ reg.entries,
        r.canonical_directory = d → reg.probe r.endpoint = false := by
  simp [Registry.liveFind, List.find?_eq_none]

theorem liveFind_spec (reg : Registry) (d : List String) (r : Registration)
    (h : reg.liveFind d = some r) :
    r ∈ reg.entries ∧ r.canonical_directory = d ∧ reg.probe r.endpoint = true := by
  refine ⟨List.mem_of_find?_eq_some h, ?_⟩
  have hp := List.find?_some h
  simpa using hp

theorem liveFind_isSome (reg : Registry) (d : List String) (r : Registration)
    (hmem : r ∈ reg.entries) (hd : r.canonical_directory = d)
    (hp : reg.probe r.endpoint = true) :
    ∃ r0, reg.liveFind d = some r0 := by
  rw [← Option.isSome_iff_exists]
  exact List.find?_isSome.mpr ⟨r, hmem, by simp [hd, hp]⟩

theorem resolveUpTo_notFound (reg : Registry) (c : List String) (m : Nat)
    (h : ∀ j, j ≤ m → reg.liveFind (canonicalize (c.take j)) = none) :
    reg.resolveUpTo c m = .NotFound := by
  induction m with
  | zero =>
      have h0 := h 0 (Nat.le_refl 0)
      simp only [List.take_zero] at h0
      simp [Registry.resolveUpTo, h0]
  | succ k ih =>
      have h1 := h (k + 1) (Nat.le_refl _)
      simp only [Registry.resolveUpTo, h1]
      exact ih (fun j hj => h j (Nat.le_succ_of_le hj))

theorem resolveUpTo_found (reg : Registry) (c : List String) (k : Nat)
    (r : Registration)
    (hk : reg.liveFind (canonicalize (c.take k)) = some r) :
    ∀ m, k ≤ m →
      (∀ j, k < j → j ≤ m → reg.liveFind (canonicalize (c.take j)) = none) →
      reg.resolveUpTo c m = .Found (canonicalize (c.take k)) r.endpoint := by
  intro m
  induction m with
  | zero =>
      intro hkm _
      have hk0 : k = 0 := Nat.le_zero.mp hkm
      subst hk0
      simp only [List.take_zero] at hk
      simp [Registry.resolveUpTo, hk]
  | succ n ih =>
      intro hkm hbet
      rcases Nat.eq_or_lt_of_le hkm with heq | hlt
      · subst heq
        simp [Registry.resolveUpTo, hk]
      · have hkn : k ≤ n := Nat.lt_succ_iff.mp hlt
        have h1 := hbet (n + 1) hlt (Nat.le_refl _)
        simp only [Registry.resolveUpTo, h1]
        exact ih hkn (fun j hj1 hj2 => hbet j hj1 (Nat.le_succ_of_le hj2))

/-- Claim C3: `resolve` walks from the starting directory upward through
every ancestor (the directory itself included), canonicalizing each
candidate; when no ancestor holds a live registration it returns `NotFound`
— never a false match — and when the ancestor at depth `k` holds a live
registration while every strictly nearer ancestor holds none, it returns
that nearest live ancestor, whatever order the entries were registered in. -/
theorem C3_resolve_nearest_ancestor (reg : Registry) (c : List String) :
    ((∀ j ∈ List.range (c.length + 1), ∀ r ∈ reg.entries,
        r.canonical_directory = canonicalize (c.take j) →
          reg.probe r.endpoint = false) →
      reg.resolve c = .NotFound) ∧
    (∀ k, k ≤ c.length →
      (∃ r ∈ reg.entries, r.canonical_directory = canonicalize (c.take k) ∧
        reg.probe r.endpoint = true) →
      (∀ j ∈ List.range (c.length + 1), k < j → ∀ r ∈ reg.entries,
        r.canonical_directory = canonicalize (c.take j) →
          reg.probe r.endpoint = false) →
      ∃ r, r ∈ reg.entries ∧
        r.canonical_directory = canonicalize (c.take k) ∧
        reg.probe r.endpoint = true ∧
        reg.resolve c = .Found (canonicalize (c.take k)) r.endpoint) := by
  constructor
  · intro h
    apply resolveUpTo_notFound
    intro j hj
    rw [liveFind_eq_none_iff]
    exact h j (List.mem_range.mpr (Nat.lt_succ_of_le hj))
  · rintro k hk ⟨r0, hr0mem, hr0d, hr0p⟩ hbet
    obtain ⟨r1, hr1⟩ := liveFind_isSome reg _ r0 hr0mem hr0d hr0p
    obtain ⟨hmem, hdir, hprobe⟩ := liveFind_spec reg _ r1 hr1
    refine ⟨r1, hmem, hdir, hprobe, ?_⟩
    apply resolveUpTo_found reg c k r1 hr1 c.length hk
    intro j hj1 hj2
    rw [liveFind_eq_none_iff]
    exact hbet j (List.mem_range.mpr (Nat.lt_succ_of_le hj2)) hj1

/-- A registry where the farther directory was registered first (it sits
earlier in the entries list) and both endpoints are reachable. -/
def regNested : Registry :=
  { entries :=
      [{ canonical_directory := ["foo"], endpoint := 1 },
       { canonical_directory := ["foo", "bar"], endpoint := 2 }],
    probe := fun _ => true }

theorem C3_resolve_nearest_ancestor_witness :
    ∃ r, r ∈ regNested.entries ∧
      r.canonical_directory = canonicalize (["foo", "bar", "baz"].take 2) ∧
      regNested.probe r.endpoint = true ∧
      regNested.resolve ["foo", "bar", "baz"]
        = .Found (canonicalize (["foo", "bar", "baz"].take 2)) r.endpoint :=
  (C3_resolve_nearest_ancestor regNested ["foo", "bar", "baz"]).2 2
    (by decide) (by decide) (by decide)

/-- Claim C5: `publish` yields `AlreadyRegistered` exactly when a live
registration — a stored entry for that exact directory whose endpoint the
probe reaches — exists; when every stored entry for the directory is
unreachable, `publish` succeeds and the new registration is recorded, so
stale entries never block a new server. -/
theorem C5_publish_already_registered_iff_live (reg : Registry)
    (d : List String) (e : Nat) :
    ((reg.publish d e).1 = .AlreadyRegistered ↔
      ∃ r ∈ reg.entries,
        r.canonical_directory = d ∧ reg.probe r.endpoint = true) ∧
    ((∀ r ∈ reg.entries,
        r.canonical_directory = d → reg.probe r.endpoint = false) →
      (reg.publish d e).1 = .Ok ∧
      ∃ r ∈ (reg.publish d e).2.entries,
        r.canonical_directory = d ∧ r.endpoint = e) := by
  cases h : reg.liveFind d with
  | some r =>
      obtain ⟨hmem, hdir, hprobe⟩ := liveFind_spec reg d r h
      constructor
      · constructor
        · intro _
          exact ⟨r, hmem, hdir, hprobe⟩
        · intro _
          simp [Registry.publish, h]
      · intro hstale
        exact absurd hprobe (by simp [hstale r hmem hdir])
  | none =>
      have hnone := (liveFind_eq_none_iff reg d).mp h
      constructor
      · simp only [Registry.publish, h]
        constructor
        · intro hcontr
          exact absurd hcontr (by simp)
        · rintro ⟨r, hmem, hdir, hprobe⟩
          exact absurd hprobe (by simp [hnone r hmem hdir])
      · intro _
        refine ⟨by simp [Registry.publish, h], ?_⟩
        refine ⟨{ canonical_directory := d, endpoint := e }, ?_, rfl, rfl⟩
        simp [Registry.publish, h]

/-- A registry holding only a stale record: the prior server for the
directory is gone, so its endpoint is unreachable. -/
def regStale : Registry :=
  { entries := [{ canonical_directory := ["foo"], endpoint := 7 }],
    probe := fun _ => false }

theorem C5_publish_already_registered_iff_live_witness :
    (regStale.publish ["foo"] 9).1 = .Ok ∧
    ∃ r ∈ (regStale.publish ["foo"] 9).2.entries,
      r.canonical_directory = ["foo"] ∧ r.endpoint = 9 :=
  (C5_publish_already_registered_iff_live regStale ["foo"] 9).2 (by decide)

/-- Modelled from the spec: the observable events of the Process Supervisor
(§4.1, §5) during the server's life — for invocation `n`, the begin and the
completion of the previous child's termination and the start of the new
child process. -/
inductive SupEvent where
  | spawnNew (n : Nat)
  | termStart (n : Nat)
  | termDone (n : Nat)
deriving Repr, DecidableEq

/-- Modelled from the spec: `respawn` (§4.1) — terminate the previous
child, wait for its exit to complete, then start the new process. -/
def respawnEvents (n : Nat) : List SupEvent :=
  [.termStart n, .termDone n, .spawnNew n]

/-- Modelled from the spec: the serialized event trace of one server (§5) —
the initial run (invocation 0) followed by `k` client-triggered respawns,
drained strictly one at a time through the single invocation-in-progress
slot. -/
def serverTrace : Nat → List SupEvent
  | 0 => [.spawnNew 0]
  | k + 1 => serverTrace k ++ respawnEvents (k + 1)

/-- Contribution of one supervisor event to the number of live children. -/
def liveDelta : SupEvent → Int
  | .spawnNew _ => 1
  | .termStart _ => 0
  | .termDone _ => -1

/-- Number of live managed children after a sequence of supervisor events. -/
def liveCount (tr : List SupEvent) : Int :=
  (tr.map liveDelta).sum

theorem liveCount_append (a b : List SupEvent) :
    liveCount (a ++ b) = liveCount a + liveCount b := by
  simp [liveCount]

theorem liveCount_serverTrace (k : Nat) : liveCount (serverTrace k) = 1 := by
  induction k with
  | zero => simp [serverTrace, liveCount, liveDelta]
  | succ n ih =>
      rw [serverTrace, liveCount_append, ih]
      simp [respawnEvents, liveCount, liveDelta]

theorem length_serverTrace (k : Nat) : (serverTrace k).length = 3 * k + 1 := by
  induction k with
  | zero => rfl
  | succ n ih =>
      simp [serverTrace, respawnEvents, ih]
      omega

theorem liveCount_take_respawnEvents (n j : Nat) :
    liveCount ((respawnEvents n).take j) ≤ 0 := by
  match j with
  | 0 => simp [liveCount]
  | 1 => simp [respawnEvents, liveCount, liveDelta]
  | 2 => simp [respawnEvents, liveCount, liveDelta]
  | j + 3 =>
      simp [respawnEvents, List.take_succ_cons, liveCount, liveDelta]

theorem liveCount_take_serverTrace (k : Nat) (i : Nat) :
    liveCount ((serverTrace k).take i) ≤ 1 := by
  induction k generalizing i with
  | zero =>
      match i with
      | 0 => simp [liveCount]
      | i + 1 => simp [serverTrace, List.take_succ_cons, liveCount, liveDelta]
  | succ n ih =>
      rw [serverTrace, List.take_append_eq_append_take, liveCount_append]
      rcases Nat.le_total i (serverTrace n).length with hle | hge
      · have h0 : i - (serverTrace n).length = 0 := Nat.sub_eq_zero_of_le hle
        rw [h0]
        have hz : liveCount ((respawnEvents (n + 1)).take 0) = 0 := rfl
        rw [hz]
        have := ih i
        omega
      · rw [List.take_of_length_le hge, liveCount_serverTrace]
        have := liveCount_take_respawnEvents (n + 1) (i - (serverTrace n).length)
        omega

theorem count_spawnNew_serverTrace_gt (k m : Nat) (h : k < m) :
    (serverTrace k).count (.spawnNew m) = 0 := by
  induction k with
  | zero =>
      have : (0 : Nat) ≠ m := by omega
      simp [serverTrace, List.count_cons, this]
  | succ n ih =>
      have hn : n < m := by omega
      have hne : n + 1 ≠ m := by omega
      simp [serverTrace, List.count_append, ih hn, respawnEvents, List.count_cons, hne]

theorem count_spawnNew_serverTrace (k m : Nat) (h : m ≤ k) :
    (serverTrace k).count (.spawnNew m) = 1 := by
  induction k with
  | zero =>
      have : m = 0 := Nat.le_zero.mp h
      subst this
      simp [serverTrace]
  | succ n ih =>
      rcases Nat.lt_or_ge n m with hlt | hge
      · have hm : m = n + 1 := by omega
        subst hm
        have h0 := count_spawnNew_serverTrace_gt n (n + 1) (Nat.lt_succ_self n)
        simp [serverTrace, List.count_append, h0, respawnEvents, List.count_cons]
      · have hne : n + 1 ≠ m := by omega
        simp [serverTrace, List.count_append, ih hge, respawnEvents,
          List.count_cons, hne]

theorem serverTrace_events_at (k m : Nat) (h : m < k) :
    (serverTrace k).get? (3 * m + 2) = some (.termDone (m + 1)) ∧
    (serverTrace k).get? (3 * m + 3) = some (.spawnNew (m + 1)) := by
  induction k with
  | zero => omega
  | succ n ih =>
      rcases Nat.lt_or_ge m n with hlt | hge
      · have hb2 : 3 * m + 2 < (serverTrace n).length := by
          rw [length_serverTrace]; omega
        have hb3 : 3 * m + 3 < (serverTrace n).length := by
          rw [length_serverTrace]; omega
        rw [serverTrace, List.get?_append hb2, List.get?_append hb3]
        exact ih hlt
      · have hm : m = n := by omega
        subst hm
        have hl2 : (serverTrace m).length ≤ 3 * m + 2 := by
          rw [length_serverTrace]; omega
        have hl3 : (serverTrace m).length ≤ 3 * m + 3 := by
          rw [length_serverTrace]; omega
        rw [serverTrace, List.get?_append_right hl2, List.get?_append_right hl3,
          length_serverTrace]
        have e2 : 3 * m + 2 - (3 * m + 1) = 1 := by omega
        have e3 : 3 * m + 3 - (3 * m + 1) = 2 := by omega
        rw [e2, e3]
        exact ⟨rfl, rfl⟩

/-- Claim C4: in the serialized supervisor trace of one server, at most one
managed child is live after any prefix of events, each invocation starts
the command exactly once, and respawn `m+1`'s new process start sits at a
strictly later trace position than the completed termination of the
previous process — respawns never overlap. -/
theorem C4_respawns_serialized (k : Nat) :
    (∀ i, liveCount ((serverTrace k).take i) ≤ 1) ∧
    (∀ m, m ≤ k → (serverTrace k).count (.spawnNew m) = 1) ∧
    (∀ m, m < k →
      (serverTrace k).get? (3 * m + 2) = some (.termDone (m + 1)) ∧
      (serverTrace k).get? (3 * m + 3) = some (.spawnNew (m + 1))) :=
  ⟨fun i => liveCount_take_serverTrace k i,
   fun m hm => count_spawnNew_serverTrace k m hm,
   fun m hm => serverTrace_events_at k m hm⟩

theorem C4_respawns_serialized_witness :
    liveCount ((serverTrace 2).take 4) ≤ 1 ∧
    (serverTrace 2).count (.spawnNew 1) = 1 ∧
    (serverTrace 2).get? 2 = some (.termDone 1) ∧
    (serverTrace 2).get? 3 = some (.spawnNew 1) :=
  ⟨(C4_respawns_serialized 2).1 4,
   (C4_respawns_serialized 2).2.1 1 (by decide),
   (C4_respawns_serialized 2).2.2 0 (by decide)⟩

/-- Modelled from the spec: the Server Loop states (§4.3). -/
inductive ServerState where
  | Starting
  | Listening
  | Terminated
deriving Repr, DecidableEq

/-- Modelled from the spec: the invocation response (§3). -/
inductive Response where
  | Ok
  | SpawnFailed (reason : String)
  | Busy
deriving Repr, DecidableEq

/-- Modelled from the spec: the Server Loop's externally visible state —
whether it is still accepting invocations and whether it has published a
registration. -/
structure ServerLoop where
  state : ServerState
  published : Bool
deriving Repr, DecidableEq

/-- The textual reason carried by a spawn failure. -/
def reasonOf : SpawnError → String
  | .cannotLaunch r => r

/-- Modelled from the spec: Server Loop startup (§4.3, §7) — run the
initial command; a `SpawnError` there is fatal and the server exits without
publishing; otherwise attempt `publish`, exiting on `AlreadyRegistered` and
entering `Listening` on success. -/
def serverStartup (initialRun : Except SpawnError Process)
    (pub : PublishResult) : ServerLoop :=
  match initialRun with
  | .error _ => { state := .Terminated, published := false }
  | .ok _ =>
      match pub with
      | .AlreadyRegistered => { state := .Terminated, published := false }
      | .Ok => { state := .Listening, published := true }

/-- Modelled from the spec: handling one invocation while listening (§4.3,
§7) — respawn; on `SpawnError` reply `SpawnFailed` and stay alive,
otherwise reply `Ok`. -/
def handleInvocation (s : ServerLoop)
    (respawnResult : Except SpawnError Process) : Response × ServerLoop :=
  match respawnResult with
  | .error e => (.SpawnFailed (reasonOf e), s)
  | .ok _ => (.Ok, s)

/-- Modelled from the spec: the listening loop — serve each queued
invocation in arrival order while the server is in `Listening`. -/
def serveAll (s : ServerLoop) :
    List (Except SpawnError Process) → ServerLoop × List Response
  | [] => (s, [])
  | r :: rest =>
      if s.state = .Listening then
        let step := handleInvocation s r
        let tail := serveAll step.2 rest
        (tail.1, step.1 :: tail.2)
      else (s, [])

/-- Modelled from the spec: a server's whole life — startup, then serving
the queued invocations, each given as the outcome its respawn would have. -/
def serverRun (initialRun : Except SpawnError Process) (pub : PublishResult)
    (respawns : List (Except SpawnError Process)) : ServerLoop × List Response :=
  serveAll (serverStartup initialRun pub) respawns

theorem serveAll_not_listening (s : ServerLoop) (h : s.state ≠ .Listening)
    (l : List (Except SpawnError Process)) : serveAll s l = (s, []) := by
  cases l with
  | nil => rfl
  | cons r rest =>
      rw [serveAll, if_neg h]

theorem handleInvocation_state (s : ServerLoop)
    (r : Except SpawnError Process) : (handleInvocation s r).2 = s := by
  cases r <;> rfl

theorem serveAll_listening (s : ServerLoop) (h : s.state = .Listening)
    (l : List (Except SpawnError Process)) :
    serveAll s l = (s, l.map (fun r => (handleInvocation s r).1)) := by
  induction l with
  | nil => rfl
  | cons r rest ih =>
      rw [serveAll, if_pos h]
      show ((serveAll (handleInvocation s r).2 rest).1,
            (handleInvocation s r).1 :: (serveAll (handleInvocation s r).2 rest).2)
          = (s, (r :: rest).map (fun r0 => (handleInvocation s r0).1))
      rw [handleInvocation_state s r, ih]
      simp

/-- Claim C6: a `SpawnError` on the server's own startup run is fatal — the
server terminates without publishing a registration and serves no
invocation — while a `SpawnError` during a client-triggered respawn is
recovered locally: the server answers that client `SpawnFailed`, stays
listening, and still answers every queued invocation. -/
theorem C6_spawn_error_policy (e : SpawnError) (pub : PublishResult)
    (respawns : List (Except SpawnError Process))
    (initialRun : Except SpawnError Process) :
    ((serverRun (.error e) pub respawns).1.state = .Terminated ∧
     (serverRun (.error e) pub respawns).1.published = false ∧
     (serverRun (.error e) pub respawns).2 = []) ∧
    ((∃ p, initialRun = .ok p) →
      (serverRun initialRun .Ok respawns).1.state = .Listening ∧
      (serverRun initialRun .Ok respawns).2.length = respawns.length ∧
      (∀ i e0, respawns.get? i = some (.error e0) →
        (serverRun initialRun .Ok respawns).2.get? i
          = some (.SpawnFailed (reasonOf e0)))) := by
  constructor
  · have hdead : serverStartup (.error e) pub
        = { state := .Terminated, published := false } := rfl
    have h := serveAll_not_listening (serverStartup (.error e) pub)
      (by rw [hdead]; intro hc; cases hc) respawns
    rw [serverRun, h, hdead]
    exact ⟨rfl, rfl, rfl⟩
  · rintro ⟨p, hp⟩
    subst hp
    have hs : serverStartup (.ok p) .Ok
        = { state := .Listening, published := true } := rfl
    have h := serveAll_listening (serverStartup (.ok p) .Ok)
      (by rw [hs]) respawns
    rw [serverRun, h]
    refine ⟨by rw [hs], by simp, ?_⟩
    intro i e0 hi
    rw [List.get?_map, hi]
    rfl

theorem C6_spawn_error_policy_witness :
    (serverRun (.ok { command := ["echo", "hello"], popen := { pid := some 5 } })
        .Ok [.error (.cannotLaunch "boom"),
             .ok { command := ["echo", "hello"], popen := { pid := some 6 } }]).1.state
      = .Listening ∧
    (serverRun (.ok { command := ["echo", "hello"], popen := { pid := some 5 } })
        .Ok [.error (.cannotLaunch "boom"),
             .ok { command := ["echo", "hello"], popen := { pid := some 6 } }]).2.length
      = 2 ∧
    (serverRun (.ok { command := ["echo", "hello"], popen := { pid := some 5 } })
        .Ok [.error (.cannotLaunch "boom"),
             .ok { command := ["echo", "hello"], popen := { pid := some 6 } }]).2.get? 0
      = some (.SpawnFailed "boom") := by
  have h := (C6_spawn_error_policy (.cannotLaunch "unused") .Ok
    [.error (.cannotLaunch "boom"),
     .ok { command := ["echo", "hello"], popen := { pid := some 6 } }]
    (.ok { command := ["echo", "hello"], popen := { pid := some 5 } })).2
    ⟨{ command := ["echo", "hello"], popen := { pid := some 5 } }, rfl⟩
  exact ⟨h.1, h.2.1, h.2.2 0 (.cannotLaunch "boom") rfl⟩
